import Mathlib

/-!
# Verification of the DingDingPeople scheduler (`main.py`)

Shallow embedding of the task-matching and dispatch pipeline of `main.py`:
the due-task selection window, the content-provider dispatch, message
rendering (external template / built-in layout), the signed webhook URL
construction (HMAC-SHA256 + Base64 + percent-encoding), and the
comment-stripping JSON load of the task list.

Modelling conventions:
* Python strings become `String`/`List Char`; bytes become `List Nat`
  (each < 256); machine integers do not occur (Python ints are unbounded,
  hash state is reduced mod 2^32 exactly where CPython does).
* The wall clock is a stream `Nat → DateTime`: index 0 is the read at the
  top of `run_scheduler`, later indices are the re-reads performed by
  `format_message` (`get_beijing_time` at its line 74).  `time.time()`
  (epoch milliseconds, used for signing) is a second stream indexed by the
  number of `send_markdown_msg` calls so far.
* `datetime` values carry microseconds; `diff.total_seconds()/60` compared
  against 0 and 15 is exact at this granularity (IEEE doubles represent
  sub-day microsecond totals exactly, and the final division by 60 cannot
  cross the decision boundaries 0 and 15), so the window test is modelled
  as integer microsecond bounds.
* Only the diagnostic prints that report errors are modelled (as `logs`);
  purely informational prints are elided.
-/

/-! ## Decimal digits and zero padding (strftime / str()) -/

def lbrace : Char := Char.ofNat 123

def rbrace : Char := Char.ofNat 125

def digitChar : Nat → Char
  | 0 => '0' | 1 => '1' | 2 => '2' | 3 => '3' | 4 => '4'
  | 5 => '5' | 6 => '6' | 7 => '7' | 8 => '8' | 9 => '9'
  | _ => '0'

/-- Decimal digits of `n`, most significant first, accumulator style.
`fuel ≥ 1` bounds the number of divisions; `fuel = n + 1` always suffices. -/
def decDigitsAux : Nat → Nat → List Char → List Char
  | 0, _, acc => acc
  | fuel + 1, n, acc =>
      if n < 10 then digitChar n :: acc
      else decDigitsAux fuel (n / 10) (digitChar (n % 10) :: acc)

def natRepr (n : Nat) : String := String.mk (decDigitsAux (n + 1) n [])

def pad2 (n : Nat) : String := if n < 10 then "0" ++ natRepr n else natRepr n

def pad4 (n : Nat) : String :=
  if n < 10 then "000" ++ natRepr n
  else if n < 100 then "00" ++ natRepr n
  else if n < 1000 then "0" ++ natRepr n
  else natRepr n

/-! ## Datetimes (Beijing time, as produced by `get_beijing_time`) -/

structure DateTime where
  year : Nat
  month : Nat
  day : Nat
  hour : Nat
  minute : Nat
  second : Nat
  usec : Nat
deriving Repr, DecidableEq

/-- `strftime('%Y-%m-%d')` -/
def fmtYmd (dt : DateTime) : String :=
  pad4 dt.year ++ "-" ++ pad2 dt.month ++ "-" ++ pad2 dt.day

/-- `strftime('%Y-%m-%d %H:%M:%S')` -/
def fmtYmdHms (dt : DateTime) : String :=
  fmtYmd dt ++ " " ++ pad2 dt.hour ++ ":" ++ pad2 dt.minute ++ ":" ++ pad2 dt.second

/-- Time of day in microseconds (the resolution of `datetime`). -/
def microOfDay (dt : DateTime) : Nat :=
  ((dt.hour * 60 + dt.minute) * 60 + dt.second) * 1000000 + dt.usec

/-! ## Python string helpers -/

/-- The whitespace class stripped by `str.strip()` and matched by `\s`
(ASCII part; the messages and time strings at issue are ASCII/CJK text). -/
def isPySpace (c : Char) : Bool :=
  c = ' ' ∨ c = '\t' ∨ c = '\n' ∨ c = '\r' ∨ c = '\x0b' ∨ c = '\x0c'

/-- `str.strip()` with no argument. -/
def pyStrip (s : String) : String :=
  String.mk (((s.data.dropWhile isPySpace).reverse.dropWhile isPySpace).reverse)

/-- Line boundaries recognised by `str.splitlines()`. -/
def isLineBoundary (c : Char) : Bool :=
  c = '\n' ∨ c = '\r' ∨ c = '\x0b' ∨ c = '\x0c' ∨
  c.toNat = 28 ∨ c.toNat = 29 ∨ c.toNat = 30 ∨ c.toNat = 133 ∨
  c.toNat = 8232 ∨ c.toNat = 8233

def splitlinesGo : List Char → List Char → List (List Char)
  | '\r' :: '\n' :: cs, cur => cur.reverse :: splitlinesGo cs []
  | c :: cs, cur =>
      if isLineBoundary c then cur.reverse :: splitlinesGo cs []
      else splitlinesGo cs (c :: cur)
  | [], cur => if cur.isEmpty then [] else [cur.reverse]

/-- `str.splitlines()` (no terminal empty line for a trailing newline). -/
def pySplitlines (s : String) : List String :=
  (splitlinesGo s.data []).map String.mk

/-- `str.replace(pat, v)` scan for a non-empty pattern `p₀ :: p`:
leftmost, non-overlapping, replaces every occurrence.  Every step consumes
at least one input character, so `fuel ≥` input length makes the fuel
irrelevant. -/
def replaceGo (p₀ : Char) (p v : List Char) : Nat → List Char → List Char
  | 0, s => s
  | _ + 1, [] => []
  | fuel + 1, c :: cs =>
      if (p₀ :: p).isPrefixOf (c :: cs) then
        v ++ replaceGo p₀ p v fuel (cs.drop p.length)
      else c :: replaceGo p₀ p v fuel cs

/-- Python `str.replace` (our call sites always pass a non-empty pattern;
the empty-pattern case of Python is not needed and maps to the identity). -/
def pyReplace (s pat v : String) : String :=
  match pat.data with
  | [] => s
  | p₀ :: p => String.mk (replaceGo p₀ p v.data s.data.length s.data)

/-! ## Tasks (one record of `tasks.json`, the fields `main.py` reads) -/

structure TaskItem where
  date : Option String := none
  time : Option String := none
  content_type : Option String := none
  content : Option String := none
  source_url : Option String := none
  title : Option String := none
  at_mobiles : List String := []
  at_user_ids : List String := []
  is_at_all : Bool := false
deriving Repr, DecidableEq

/-! ## Content providers (lines 18-56) -/

/-- `StaticContentProvider.generate` -/
def staticProvider (task : TaskItem) : String := task.content.getD "无内容"

/-- `CrawlerContentProvider.generate` -/
def crawlerProvider (task : TaskItem) : String :=
  "🚀 动态数据获取中...\n来源: " ++ task.source_url.getD "未知来源" ++
  "\n(在此处编写您的爬虫代码)"

/-- The `PROVIDERS` registry: only `static` and `crawler` are registered. -/
def PROVIDERS : List (String × (TaskItem → String)) :=
  [("static", staticProvider), ("crawler", crawlerProvider)]

/-- `get_task_content` (lines 47-56).  The registered providers are pure, so
the `except` branch of the source is unreachable in the model. -/
def get_task_content (task : TaskItem) : String :=
  let c_type := task.content_type.getD "static"
  match PROVIDERS.lookup c_type with
  | some provider => provider task
  | none => "⚠️ 未知的任务类型: " ++ c_type

/-! ## derive_title (lines 60-66) -/

def stripHashes (s : String) : String :=
  pyStrip (String.mk (s.data.dropWhile (fun c => c = '#')))

/-- `s.startswith('#')`: the first character is `#`. -/
def startsWithHash (s : String) : Bool :=
  match s.data with
  | '#' :: _ => true
  | _ => false

def derive_title_lines : List String → String
  | [] => "提醒通知"
  | line :: rest =>
      let s := pyStrip line
      if startsWithHash s then stripHashes s
      else derive_title_lines rest

/-- `derive_title` (lines 60-66). -/
def derive_title (md_text : String) : String :=
  derive_title_lines (pySplitlines md_text)

/-- Spec-side reformulation: the heading extracted from one line. -/
def headingOf (line : String) : Option String :=
  let s := pyStrip line
  if startsWithHash s then some (stripHashes s) else none

/-- Spec-side reformulation: the first heading-like line of the text. -/
def firstHeading (md : String) : Option String :=
  (pySplitlines md).findSome? headingOf

/-! ## format_message (lines 72-89): the built-in layout.
`nowRead` is the value of the `get_beijing_time()` call on its line 74 —
note this is a fresh clock read, not the scheduler's canonical `now`. -/

def format_message (title content : String) (nowRead : DateTime) : String :=
  "### 📌 任务提醒：" ++ title ++
  "\n\n---\n**📅 发送时间：** " ++ fmtYmdHms nowRead ++
  "\n\n**💬 提醒内容：**\n> " ++ content ++
  "\n\n---\n#### 📋 任务状态\n* **执行节点：** GitHub Actions\n* **发送渠道：** 钉钉自动化助手\n* **安全策略：** HMAC-SHA256\n"

/-! ## strptime("%Y-%m-%d %H:%M") — the time-of-task parse (line 173).

The date half of the composed string is `today_str`, which always matches;
what remains is the `HH:MM` parse of the task's `time` string.  CPython's
`_strptime` compiles `%H` to `2[0-3]|[0-1]\d|\d` and `%M` to `[0-5]\d|\d`,
the blank of the format to `\s+` (absorbing extra leading whitespace of the
time string), and rejects unconverted trailing data; with backtracking this
is equivalent to: optional whitespace, one or two digits < 24, `:`, one or
two digits < 60, end of string. -/

def grabDigits2 : List Char → Option (Nat × List Char)
  | c₁ :: rest =>
      if c₁.isDigit then
        match rest with
        | c₂ :: rest₂ =>
            if c₂.isDigit then some ((c₁.toNat - 48) * 10 + (c₂.toNat - 48), rest₂)
            else some (c₁.toNat - 48, rest)
        | [] => some (c₁.toNat - 48, [])
      else none
  | [] => none

def parseHM (t : String) : Option (Nat × Nat) :=
  let cs := t.data.dropWhile isPySpace
  match grabDigits2 cs with
  | none => none
  | some (h, rest) =>
      match rest with
      | ':' :: rest₂ =>
          match grabDigits2 rest₂ with
          | some (m, []) => if h < 24 ∧ m < 60 then some (h, m) else none
          | _ => none
      | _ => none

/-! ## UTF-8, SHA-256, HMAC, Base64, percent-encoding (lines 91-106) -/

/-- UTF-8 encoding of one scalar value (as `str.encode('utf-8')`). -/
def utf8Char (c : Char) : List Nat :=
  let n := c.toNat
  if n < 128 then [n]
  else if n < 2048 then [192 + n / 64, 128 + n % 64]
  else if n < 65536 then [224 + n / 4096, 128 + (n / 64) % 64, 128 + n % 64]
  else [240 + n / 262144, 128 + (n / 4096) % 64, 128 + (n / 64) % 64, 128 + n % 64]

def utf8 (s : String) : List Nat := s.data.flatMap utf8Char

def w32 (x : Nat) : Nat := x % 4294967296

def rotr32 (x n : Nat) : Nat := w32 ((x >>> n) ||| (x <<< (32 - n)))

def shaBigSigma0 (x : Nat) : Nat := rotr32 x 2 ^^^ rotr32 x 13 ^^^ rotr32 x 22

def shaBigSigma1 (x : Nat) : Nat := rotr32 x 6 ^^^ rotr32 x 11 ^^^ rotr32 x 25

def shaSmallSigma0 (x : Nat) : Nat := rotr32 x 7 ^^^ rotr32 x 18 ^^^ (x >>> 3)

def shaSmallSigma1 (x : Nat) : Nat := rotr32 x 17 ^^^ rotr32 x 19 ^^^ (x >>> 10)

def shaK : List Nat :=
  [1116352408, 1899447441, 3049323471, 3921009573, 961987163, 1508970993,
   2453635748, 2870763221, 3624381080, 310598401, 607225278, 1426881987,
   1925078388, 2162078206, 2614888103, 3248222580, 3835390401, 4022224774,
   264347078, 604807628, 770255983, 1249150122, 1555081692, 1996064986,
   2554220882, 2821834349, 2952996808, 3210313671, 3336571891, 3584528711,
   113926993, 338241895, 666307205, 773529912, 1294757372, 1396182291,
   1695183700, 1986661051, 2177026350, 2456956037, 2730485921, 2820302411,
   3259730800, 3345764771, 3516065817, 3600352804, 4094571909, 275423344,
   430227734, 506948616, 659060556, 883997877, 958139571, 1322822218,
   1537002063, 1747873779, 1955562222, 2024104815, 2227730452, 2361852424,
   2428436474, 2756734187, 3204031479, 3329325298]

def shaH0 : List Nat :=
  [1779033703, 3144134277, 1013904242, 2773480762,
   1359893119, 2600822924, 528734635, 1541459225]

/-- Split a byte list into 64-byte blocks (the input length is a multiple
of 64 after padding); each step consumes 64 bytes, so `fuel ≥` the length
makes the fuel irrelevant. -/
def toBlocksAux : Nat → List Nat → List (List Nat)
  | 0, _ => []
  | fuel + 1, l => if l.isEmpty then [] else l.take 64 :: toBlocksAux fuel (l.drop 64)

def toBlocks (l : List Nat) : List (List Nat) := toBlocksAux (l.length + 1) l

/-- Big-endian 32-bit words from bytes. -/
def bytesToWords : List Nat → List Nat
  | a :: b :: c :: d :: rest => (((a * 256 + b) * 256 + c) * 256 + d) :: bytesToWords rest
  | _ => []

/-- Big-endian bytes of one 32-bit word. -/
def wordBytes (x : Nat) : List Nat :=
  [x / 16777216 % 256, x / 65536 % 256, x / 256 % 256, x % 256]

/-- SHA-256 padding: 0x80, zeros to 56 mod 64, 8-byte big-endian bit length. -/
def shaPad (msg : List Nat) : List Nat :=
  let len := msg.length
  let zeros := (119 - len % 64) % 64
  let bitlen := 8 * len
  msg ++ [128] ++ List.replicate zeros 0 ++
    [bitlen / 72057594037927936 % 256, bitlen / 281474976710656 % 256,
     bitlen / 1099511627776 % 256, bitlen / 4294967296 % 256,
     bitlen / 16777216 % 256, bitlen / 65536 % 256, bitlen / 256 % 256, bitlen % 256]

/-- Extend the 16-word block to the 64-word message schedule. -/
def extendSchedule (ws : List Nat) : Nat → List Nat
  | 0 => ws
  | n + 1 =>
      let i := ws.length
      let w := w32 (ws.getD (i - 16) 0 + shaSmallSigma0 (ws.getD (i - 15) 0) +
                    ws.getD (i - 7) 0 + shaSmallSigma1 (ws.getD (i - 2) 0))
      extendSchedule (ws ++ [w]) n

def shaCh (x y z : Nat) : Nat := (x &&& y) ^^^ ((4294967295 - x) &&& z)

def shaMaj (x y z : Nat) : Nat := (x &&& y) ^^^ (x &&& z) ^^^ (y &&& z)

/-- One compression round on the 8-word state. -/
def shaRound (st : List Nat) (ki wi : Nat) : List Nat :=
  match st with
  | [a, b, c, d, e, f, g, h] =>
      let t1 := w32 (h + shaBigSigma1 e + shaCh e f g + ki + wi)
      let t2 := w32 (shaBigSigma0 a + shaMaj a b c)
      [w32 (t1 + t2), a, b, c, w32 (d + t1), e, f, g]
  | other => other

/-- Process one 64-byte block. -/
def shaBlock (h : List Nat) (block : List Nat) : List Nat :=
  let ws := extendSchedule (bytesToWords block) 48
  let st := (shaK.zip ws).foldl (fun st kw => shaRound st kw.1 kw.2) h
  (h.zip st).map (fun p => w32 (p.1 + p.2))

/-- SHA-256 of a byte string, as a 32-byte list. -/
def sha256 (msg : List Nat) : List Nat :=
  ((toBlocks (shaPad msg)).foldl shaBlock shaH0).flatMap wordBytes

/-- HMAC-SHA256 (`hmac.new(key, msg, hashlib.sha256).digest()`). -/
def hmacSha256 (key msg : List Nat) : List Nat :=
  let k0 := if key.length > 64 then sha256 key else key
  let kp := k0 ++ List.replicate (64 - k0.length) 0
  let ipad := kp.map (fun b => b ^^^ 54)
  let opad := kp.map (fun b => b ^^^ 92)
  sha256 (opad ++ sha256 (ipad ++ msg))

def b64Alphabet : List Char :=
  "ABCDEFGHIJKLMNOPQRSTUVWXYZabcdefghijklmnopqrstuvwxyz0123456789+/".data

def b64At (i : Nat) : Char := b64Alphabet.getD i 'A'

/-- `base64.b64encode` of a byte list, as text. -/
def b64encode : List Nat → String
  | a :: b :: c :: rest =>
      String.mk [b64At (a / 4), b64At ((a % 4) * 16 + b / 16),
                 b64At ((b % 16) * 4 + c / 64), b64At (c % 64)] ++ b64encode rest
  | [a, b] =>
      String.mk [b64At (a / 4), b64At ((a % 4) * 16 + b / 16), b64At ((b % 16) * 4), '=']
  | [a] => String.mk [b64At (a / 4), b64At ((a % 4) * 16), '=', '=']
  | [] => ""

def hexDigitUpper (n : Nat) : Char := "0123456789ABCDEF".data.getD n '0'

def isQuoteSafe (b : Nat) : Bool :=
  (65 ≤ b ∧ b ≤ 90) ∨ (97 ≤ b ∧ b ≤ 122) ∨ (48 ≤ b ∧ b ≤ 57) ∨
  b = 45 ∨ b = 46 ∨ b = 95 ∨ b = 126

/-- `urllib.parse.quote_plus`: UTF-8 bytes; unreserved bytes kept, space
becomes `+`, everything else percent-encoded with uppercase hex. -/
def quote_plus (s : String) : String :=
  String.mk ((utf8 s).flatMap (fun b =>
    if b = 32 then ['+']
    else if isQuoteSafe b then [Char.ofNat b]
    else ['%', hexDigitUpper (b / 16), hexDigitUpper (b % 16)]))

/-- `get_signed_url` (lines 91-106).  `tsMs` is the value of
`round(time.time() * 1000)` at the moment of the call.  `not SECRET` /
`not WEBHOOK_URL` are Python truthiness tests: missing or empty both fail. -/
def get_signed_url (WEBHOOK_URL SECRET : Option String) (tsMs : Nat) : Option String :=
  match SECRET, WEBHOOK_URL with
  | some s, some u =>
      if s = "" ∨ u = "" then none
      else
        let timestamp := natRepr tsMs
        let string_to_sign := timestamp ++ "\n" ++ s
        let hmac_code := hmacSha256 (utf8 s) (utf8 string_to_sign)
        let sign := quote_plus (b64encode hmac_code)
        if u.data.contains '?' then
          some (u ++ "&timestamp=" ++ timestamp ++ "&sign=" ++ sign)
        else
          some (u ++ "?timestamp=" ++ timestamp ++ "&sign=" ++ sign)
  | _, _ => none

/-! ## Mentions label (lines 200-208) -/

/-- Step 4 of the loop: the `@`-mentions label.  `elif at_mobiles:` is a
Python truthiness test on the list (non-empty). -/
def mentions_text (task : TaskItem) : String :=
  if task.is_at_all then "@所有人"
  else if task.at_mobiles.isEmpty then "无"
  else String.intercalate " " (task.at_mobiles.map (fun m => "@" ++ m))

/-! ## Due decision (lines 163-193) -/

inductive DueResult where
  | due
  | skipDate
  | skipFuture
  | skipExpired
  | timeFormatError (t : String)
deriving Repr, DecidableEq

def TIME_WINDOW_MINUTES : Nat := 15

/-- Steps 1-2 of the loop body: date equality, then the time-window check.
`if task_time_str:` is a truthiness test, so an *empty* `time` string is
treated like an absent one.  The window comparison is exact in microseconds
(15 minutes = 900000000 µs); `task_dt` shares `now`'s calendar date because
the date strings already compared equal. -/
def dueCheck (now : DateTime) (today_str : String) (task : TaskItem) : DueResult :=
  if task.date ≠ some today_str then DueResult.skipDate
  else
    match task.time with
    | none => DueResult.due
    | some t =>
        if t = "" then DueResult.due
        else
          match parseHM t with
          | none => DueResult.timeFormatError t
          | some (h, m) =>
              let diffUs : Int := (microOfDay now : Int) - ((h * 3600 + m * 60) * 1000000 : Nat)
              if diffUs < 0 then DueResult.skipFuture
              else if diffUs > 900000000 then DueResult.skipExpired
              else DueResult.due

/-! ## The run environment and effects -/

/-- The process environment of one run: configuration (env vars), the
optional `template.md` file (`some none` = the file exists but reading it
raises, taking the fallback branch of lines 221-223), and the two clock
streams. -/
structure Env where
  WEBHOOK_URL : Option String := none
  SECRET : Option String := none
  template_md : Option (Option String) := none
  beijing : Nat → DateTime
  epochMs : Nat → Nat

/-- One HTTP POST to the webhook: the signed URL and the JSON body fields
(`markdown.title`, `markdown.text`, and the `at` block). -/
structure Post where
  url : String
  markdown_title : String
  markdown_text : String
  isAtAll : Bool
  atUserIds : List String
  atMobiles : List String
deriving Repr, DecidableEq

structure RunResult where
  posts : List Post
  logs : List String
  found : Bool
deriving Repr, DecidableEq

/-- `send_markdown_msg` (lines 108-134): returns the POST it performs, or
none (with the configuration-error diagnostic of line 94) when signing
fails.  `markdown.title` is derived from the rendered text (line 115). -/
def send_markdown_msg (WEBHOOK_URL SECRET : Option String) (tsMs : Nat)
    (markdown_text : String) (at_mobiles at_user_ids : List String)
    (is_at_all : Bool) : Option Post × List String :=
  match get_signed_url WEBHOOK_URL SECRET tsMs with
  | none => (none, ["错误: 缺少 WEBHOOK_URL 或 SECRET 环境变量"])
  | some url =>
      (some { url := url, markdown_title := derive_title markdown_text,
              markdown_text := markdown_text, isAtAll := is_at_all,
              atUserIds := at_user_ids, atMobiles := at_mobiles }, [])

def tokTitle : String := "\x7b\x7btitle\x7d\x7d"

def tokDatetime : String := "\x7b\x7bdatetime\x7d\x7d"

def tokContent : String := "\x7b\x7bcontent\x7d\x7d"

def tokMentions : String := "\x7b\x7bmentions\x7d\x7d"

/-- Step 5 (lines 210-225): external template when `template.md` exists
(four sequential `str.replace` calls, `{{datetime}}` taking the canonical
`now`), otherwise `format_message`, which re-reads the clock at `bIdx`.
Returns the text, the next clock index, and any diagnostic. -/
def renderStep (env : Env) (now : DateTime) (bIdx : Nat)
    (title final_content m_text : String) : String × Nat × List String :=
  match env.template_md with
  | some (some tpl) =>
      (pyReplace (pyReplace (pyReplace (pyReplace tpl tokTitle title)
          tokDatetime (fmtYmdHms now)) tokContent final_content) tokMentions m_text,
       bIdx, [])
  | some none =>
      (format_message title final_content (env.beijing bIdx), bIdx + 1,
       ["模板渲染出错: 使用默认格式"])
  | none =>
      (format_message title final_content (env.beijing bIdx), bIdx + 1, [])

/-- The task loop of `run_scheduler` (lines 163-234).  `bIdx` counts the
`get_beijing_time()` re-reads already performed (index 0 was the canonical
`now`), `eIdx` the `time.time()` reads. -/
def runTasks (env : Env) (now : DateTime) (today_str : String) :
    List TaskItem → Nat → Nat → RunResult
  | [], _, _ => ⟨[], [], false⟩
  | task :: rest, bIdx, eIdx =>
      match dueCheck now today_str task with
      | DueResult.due =>
          let final_content := get_task_content task
          let title := task.title.getD "日程提醒"
          let m_text := mentions_text task
          let step := renderStep env now bIdx title final_content m_text
          let sent := send_markdown_msg env.WEBHOOK_URL env.SECRET
            (env.epochMs eIdx) step.1 task.at_mobiles task.at_user_ids task.is_at_all
          let r := runTasks env now today_str rest step.2.1 (eIdx + 1)
          ⟨sent.1.toList ++ r.posts, step.2.2 ++ sent.2 ++ r.logs, true⟩
      | DueResult.timeFormatError t =>
          let r := runTasks env now today_str rest bIdx eIdx
          ⟨r.posts, ("时间格式错误: " ++ t ++ "，应为 HH:MM") :: r.logs, r.found⟩
      | _ => runTasks env now today_str rest bIdx eIdx

/-- `run_scheduler` (lines 138-237) after the task list has been loaded:
the canonical `now` is the single clock read of line 139. -/
def run_scheduler (env : Env) (tasks : List TaskItem) : RunResult :=
  let now := env.beijing 0
  runTasks env now (fmtYmd now) tasks 1 0

/-! ## The canonical-now renderer, for comparison (claim C3).

Modelled from the spec: "Timestamp is always the canonical now" /
"single canonical now, not read repeatedly from wall-clock" — identical to
`renderStep`/`runTasks` except that the built-in layout is rendered at the
canonical instant instead of a fresh clock read. -/

def renderStepSpec (env : Env) (now : DateTime) (bIdx : Nat)
    (title final_content m_text : String) : String × Nat × List String :=
  match env.template_md with
  | some (some tpl) =>
      (pyReplace (pyReplace (pyReplace (pyReplace tpl tokTitle title)
          tokDatetime (fmtYmdHms now)) tokContent final_content) tokMentions m_text,
       bIdx, [])
  | some none =>
      (format_message title final_content now, bIdx + 1,
       ["模板渲染出错: 使用默认格式"])
  | none =>
      (format_message title final_content now, bIdx + 1, [])

def runTasksSpec (env : Env) (now : DateTime) (today_str : String) :
    List TaskItem → Nat → Nat → RunResult
  | [], _, _ => ⟨[], [], false⟩
  | task :: rest, bIdx, eIdx =>
      match dueCheck now today_str task with
      | DueResult.due =>
          let final_content := get_task_content task
          let title := task.title.getD "日程提醒"
          let m_text := mentions_text task
          let step := renderStepSpec env now bIdx title final_content m_text
          let sent := send_markdown_msg env.WEBHOOK_URL env.SECRET
            (env.epochMs eIdx) step.1 task.at_mobiles task.at_user_ids task.is_at_all
          let r := runTasksSpec env now today_str rest step.2.1 (eIdx + 1)
          ⟨sent.1.toList ++ r.posts, step.2.2 ++ sent.2 ++ r.logs, true⟩
      | DueResult.timeFormatError t =>
          let r := runTasksSpec env now today_str rest bIdx eIdx
          ⟨r.posts, ("时间格式错误: " ++ t ++ "，应为 HH:MM") :: r.logs, r.found⟩
      | _ => runTasksSpec env now today_str rest bIdx eIdx

def run_scheduler_spec (env : Env) (tasks : List TaskItem) : RunResult :=
  let now := env.beijing 0
  runTasksSpec env now (fmtYmd now) tasks 1 0

/-! ## Comment stripping and task-list parsing (lines 145-154) -/

/-- The characters after the first `*/` in the input, if any. -/
def findClose : List Char → Option (List Char)
  | '*' :: '/' :: cs => some cs
  | _ :: cs => findClose cs
  | [] => none

/-- `re.sub(r'/\*.*?\*/', '', text, flags=re.S)`: scan left to right; at
each `/*`, delete through the nearest following `*/` (non-greedy match);
if no `*/` follows anywhere, nothing from here on can match, so the rest
is kept verbatim.  Every step consumes at least one character, so
`fuel ≥` input length makes the fuel irrelevant. -/
def stripBC : Nat → List Char → List Char
  | 0, l => l
  | _ + 1, [] => []
  | fuel + 1, '/' :: '*' :: cs =>
      match findClose cs with
      | some rest => stripBC fuel rest
      | none => '/' :: '*' :: cs
  | fuel + 1, c :: cs => c :: stripBC fuel cs

def stripBlockComments (text : String) : String :=
  String.mk (stripBC text.data.length text.data)

/-! ## `json.loads` (executable subset).

Faithful to `json.loads` on the fragment the task files use: objects,
arrays, double-quoted strings with the short escapes, integers without
leading zeros, `true`/`false`/`null`, and JSON whitespace.  Floats and
`\uXXXX` escapes are outside the modelled fragment (the parser rejects
them; no claim exercises them). -/

inductive Json where
  | jnull
  | jbool (b : Bool)
  | jnum (n : Int)
  | jstr (s : String)
  | jarr (items : List Json)
  | jobj (pairs : List (String × Json))

def isJsonWs (c : Char) : Bool := c = ' ' ∨ c = '\t' ∨ c = '\n' ∨ c = '\r'

def skipJsonWs : List Char → List Char
  | c :: cs => if isJsonWs c then skipJsonWs cs else c :: cs
  | [] => []

/-- String body after the opening quote: content and what follows the
closing quote. -/
def parseStrBody : List Char → Option (List Char × List Char)
  | '"' :: cs => some ([], cs)
  | '\\' :: e :: cs =>
      (match e with
       | 't' => some '\t'
       | 'n' => some '\n'
       | 'r' => some '\r'
       | '"' => some '"'
       | '\\' => some '\\'
       | '/' => some '/'
       | 'b' => some '\x08'
       | 'f' => some '\x0c'
       | _ => none).bind
      (fun c => (parseStrBody cs).map
        (fun (p : List Char × List Char) => (c :: p.1, p.2)))
  | c :: cs =>
      if c.toNat < 32 then none
      else (parseStrBody cs).map
        (fun (p : List Char × List Char) => (c :: p.1, p.2))
  | [] => none

def parseDigitsGo : List Char → Nat → Nat × List Char
  | c :: cs, acc => if c.isDigit then parseDigitsGo cs (acc * 10 + (c.toNat - 48)) else (acc, c :: cs)
  | [], acc => (acc, [])

/-- JSON integer: optional minus, digits, no leading zero (except `0`). -/
def hasLeadingZero (c : Char) (cs : List Char) : Bool :=
  c = '0' && (match cs with | d :: _ => d.isDigit | [] => false)

def parseIntTok : List Char → Option (Int × List Char)
  | '-' :: c :: cs =>
      if c.isDigit then
        if hasLeadingZero c cs then none
        else
          let p := parseDigitsGo (c :: cs) 0
          some (-(p.1 : Int), p.2)
      else none
  | c :: cs =>
      if c.isDigit then
        if hasLeadingZero c cs then none
        else
          let p := parseDigitsGo (c :: cs) 0
          some ((p.1 : Int), p.2)
      else none
  | [] => none

mutual

def parseVal : Nat → List Char → Option (Json × List Char)
  | 0, _ => none
  | _ + 1, [] => none
  | fuel + 1, c :: cs =>
      match c with
      | '"' => (parseStrBody cs).map (fun p => (Json.jstr (String.mk p.1), p.2))
      | '[' =>
          match skipJsonWs cs with
          | ']' :: rest => some (Json.jarr [], rest)
          | cs' => (parseElems fuel cs').map (fun p => (Json.jarr p.1, p.2))
      | '{' =>
          match skipJsonWs cs with
          | '}' :: rest => some (Json.jobj [], rest)
          | cs' => (parseFields fuel cs').map (fun p => (Json.jobj p.1, p.2))
      | 't' =>
          match cs with
          | 'r' :: 'u' :: 'e' :: rest => some (Json.jbool true, rest)
          | _ => none
      | 'f' =>
          match cs with
          | 'a' :: 'l' :: 's' :: 'e' :: rest => some (Json.jbool false, rest)
          | _ => none
      | 'n' =>
          match cs with
          | 'u' :: 'l' :: 'l' :: rest => some (Json.jnull, rest)
          | _ => none
      | _ => (parseIntTok (c :: cs)).map (fun p => (Json.jnum p.1, p.2))

def parseElems : Nat → List Char → Option (List Json × List Char)
  | 0, _ => none
  | fuel + 1, cs =>
      (parseVal fuel (skipJsonWs cs)).bind (fun p =>
        match skipJsonWs p.2 with
        | ',' :: rest => (parseElems fuel rest).map (fun q => (p.1 :: q.1, q.2))
        | ']' :: rest => some ([p.1], rest)
        | _ => none)

def parseFields : Nat → List Char → Option (List (String × Json) × List Char)
  | 0, _ => none
  | fuel + 1, cs =>
      match skipJsonWs cs with
      | '"' :: cs' =>
          (parseStrBody cs').bind (fun k =>
            match skipJsonWs k.2 with
            | ':' :: rest =>
                (parseVal fuel (skipJsonWs rest)).bind (fun p =>
                  match skipJsonWs p.2 with
                  | ',' :: rest₂ => (parseFields fuel rest₂).map
                      (fun q => ((String.mk k.1, p.1) :: q.1, q.2))
                  | '}' :: rest₂ => some ([(String.mk k.1, p.1)], rest₂)
                  | _ => none)
            | _ => none)
      | _ => none

end

/-- `json.loads` on the modelled fragment: one value, surrounded only by
whitespace. -/
def json_loads (s : String) : Option Json :=
  match parseVal (s.data.length + 1) (skipJsonWs s.data) with
  | some (v, rest) => if (skipJsonWs rest).isEmpty then some v else none
  | none => none

/-- Lines 149-151: the text handed to the JSON parser is the raw file with
the block-comment spans deleted textually. -/
def loadTasks (text : String) : Option Json :=
  json_loads (stripBlockComments text)

/-! ## Concrete fixtures used by witnesses and counterexamples -/

def dtW : DateTime := ⟨2026, 1, 2, 9, 0, 0, 0⟩

def dtW1 : DateTime := ⟨2026, 1, 2, 9, 0, 1, 0⟩

def envW : Env :=
  { WEBHOOK_URL := some "https://example.com/hook", SECRET := some "testsecret",
    template_md := none, beijing := fun _ => dtW, epochMs := fun _ => 1700000000000 }

def taskW : TaskItem := { date := some "2026-01-02", content := some "# greetings\nhello" }

/-! ## Claim C9: comment stripping is purely textual -/

def tasksFileC9 : String :=
  "[\x7b\"date\": \"2026-01-01\", \"content\": \"a/*x*/b\"\x7d]"

/-- **C9.** The text handed to the JSON parser is the raw task file with
every minimal `/* ... */` span deleted, even inside JSON string literals:
on a file whose `content` string contains such a span, the loaded task
list differs from the one written in the file (the span is cut out of the
string value). -/
theorem comment_stripping_is_textual :
    (∀ text : String, loadTasks text = json_loads (stripBlockComments text)) ∧
    json_loads tasksFileC9 =
      some (Json.jarr [Json.jobj
        [("date", Json.jstr "2026-01-01"), ("content", Json.jstr "a/*x*/b")]]) ∧
    loadTasks tasksFileC9 =
      some (Json.jarr [Json.jobj
        [("date", Json.jstr "2026-01-01"), ("content", Json.jstr "ab")]]) ∧
    loadTasks tasksFileC9 ≠ json_loads tasksFileC9 := by
  refine ⟨fun _ => rfl, rfl, rfl, fun h => ?_⟩
  have h2 : some (Json.jarr [Json.jobj
        [("date", Json.jstr "2026-01-01"), ("content", Json.jstr "ab")]]) =
      some (Json.jarr [Json.jobj
        [("date", Json.jstr "2026-01-01"), ("content", Json.jstr "a/*x*/b")]]) :=
    (rfl.trans h).trans rfl
  simp at h2

/-! ## Claim C7: the mentions label -/

def taskC7 : TaskItem := { is_at_all := false, at_mobiles := [], at_user_ids := ["u1"] }

/-- **C7 counterexample.** For a task with no phone numbers but a
non-empty `at_user_ids`, the label is `无` (none), not the space-join over
`mention_phone_numbers` (which would be empty) — the claim's "none only
when both lists are empty" reading fails. -/
theorem mentions_label_counterexample :
    mentions_text taskC7 = "无" ∧
    taskC7.at_user_ids ≠ [] ∧
    mentions_text taskC7 ≠
      String.intercalate " " (taskC7.at_mobiles.map (fun m => "@" ++ m)) := by
  refine ⟨rfl, by decide, by decide⟩

/-- **C7 (amended).** The label is the everyone label when
`mention_everyone` is set; otherwise it is `无` whenever
`mention_phone_numbers` is empty — regardless of `mention_user_ids` —
and the space-joined `@`-list otherwise.  `mention_user_ids` never
influences the label. -/
theorem mentions_label_characterization :
    ∀ task : TaskItem,
      mentions_text task =
        (if task.is_at_all then "@所有人"
         else if task.at_mobiles = [] then "无"
         else String.intercalate " " (task.at_mobiles.map (fun m => "@" ++ m))) ∧
      (∀ uids, mentions_text { task with at_user_ids := uids } = mentions_text task) := by
  intro task
  constructor
  · by_cases ha : task.is_at_all <;>
      by_cases hm : task.at_mobiles = [] <;>
        simp [mentions_text, ha, hm, List.isEmpty_iff]
  · intro uids
    by_cases ha : task.is_at_all <;> simp [mentions_text, ha]

/-! ## Claim C2: the `file` content-source kind -/

/-- Modelled from the spec (§4.2): "`file`: reads text from
`source_locator` if it exists; returns a descriptive error placeholder if
missing or unreadable."  No such provider exists in `main.py`; this is the
claim's own semantics, for comparison.  `fs` is the file system. -/
def resolveFileSpec (fs : String → Option String) (task : TaskItem) : String :=
  match fs (task.source_url.getD "") with
  | some txt => txt
  | none => "⚠️ 文件读取失败: " ++ task.source_url.getD ""

def fsC2 : String → Option String :=
  fun p => if p = "notes.txt" then some "hello" else none

def taskC2 : TaskItem :=
  { date := some "2026-01-02", content_type := some "file", source_url := some "notes.txt" }

/-- **C2 counterexample.** A `file` task whose file exists and holds
"hello" does not resolve to the file's text: no `file` provider is
registered, so `get_task_content` returns the unknown-kind placeholder and
never consults the file system. -/
theorem file_kind_counterexample :
    get_task_content taskC2 = "⚠️ 未知的任务类型: file" ∧
    resolveFileSpec fsC2 taskC2 = "hello" ∧
    get_task_content taskC2 ≠ resolveFileSpec fsC2 taskC2 := by
  refine ⟨rfl, rfl, by decide⟩

/-- All four fields the built-in layout embeds, as infixes of its output:
the title, the render-time timestamp, the content, and the fixed
`HMAC-SHA256` scheme label. -/
theorem format_message_infixes (t c : String) (dt : DateTime) :
    t.data <:+: (format_message t c dt).data ∧
    (fmtYmdHms dt).data <:+: (format_message t c dt).data ∧
    c.data <:+: (format_message t c dt).data ∧
    "HMAC-SHA256".data <:+: (format_message t c dt).data := by
  refine ⟨⟨"### 📌 任务提醒：".data,
      ("\n\n---\n**📅 发送时间：** " ++ fmtYmdHms dt ++ "\n\n**💬 提醒内容：**\n> " ++ c ++
       "\n\n---\n#### 📋 任务状态\n* **执行节点：** GitHub Actions\n* **发送渠道：** 钉钉自动化助手\n* **安全策略：** HMAC-SHA256\n").data, ?_⟩,
    ⟨("### 📌 任务提醒：" ++ t ++ "\n\n---\n**📅 发送时间：** ").data,
      ("\n\n**💬 提醒内容：**\n> " ++ c ++
       "\n\n---\n#### 📋 任务状态\n* **执行节点：** GitHub Actions\n* **发送渠道：** 钉钉自动化助手\n* **安全策略：** HMAC-SHA256\n").data, ?_⟩,
    ⟨("### 📌 任务提醒：" ++ t ++ "\n\n---\n**📅 发送时间：** " ++ fmtYmdHms dt ++
       "\n\n**💬 提醒内容：**\n> ").data,
      ("\n\n---\n#### 📋 任务状态\n* **执行节点：** GitHub Actions\n* **发送渠道：** 钉钉自动化助手\n* **安全策略：** HMAC-SHA256\n").data, ?_⟩,
    ⟨("### 📌 任务提醒：" ++ t ++ "\n\n---\n**📅 发送时间：** " ++ fmtYmdHms dt ++
       "\n\n**💬 提醒内容：**\n> " ++ c ++
       "\n\n---\n#### 📋 任务状态\n* **执行节点：** GitHub Actions\n* **发送渠道：** 钉钉自动化助手\n* **安全策略：** ").data,
      "\n".data, ?_⟩⟩
  all_goals simp only [format_message, String.data_append, List.append_assoc]
  rfl

/-- **C2 (amended).** A task with `content_source_kind` `file` hits no
registered provider: content resolution returns the unknown-kind
placeholder `⚠️ 未知的任务类型: file` without consulting any file, and if
the task is due, delivery is still attempted with the placeholder embedded
in the message body. -/
theorem file_kind_unknown_placeholder :
    ∀ (task : TaskItem) (env : Env),
      task.content_type = some "file" →
      get_task_content task = "⚠️ 未知的任务类型: file" ∧
      (dueCheck (env.beijing 0) (fmtYmd (env.beijing 0)) task = DueResult.due →
        (run_scheduler env [task]).found = true ∧
        (env.template_md = none → ∀ p ∈ (run_scheduler env [task]).posts,
          "⚠️ 未知的任务类型: file".data <:+: p.markdown_text.data)) := by
  intro task env hct
  have hc : get_task_content task = "⚠️ 未知的任务类型: file" := by
    simp [get_task_content, hct, PROVIDERS, List.lookup]
  refine ⟨hc, fun hdue => ?_⟩
  simp only [run_scheduler, runTasks, hdue]
  refine ⟨by trivial, fun ht p hp => ?_⟩
  simp only [send_markdown_msg] at hp
  rcases hsu : get_signed_url env.WEBHOOK_URL env.SECRET (env.epochMs 0) with _ | url <;>
    rw [hsu] at hp
  · simp at hp
  · simp only [Option.toList_some, List.cons_append, List.nil_append, List.mem_cons,
      List.not_mem_nil, or_false] at hp
    subst hp
    simp only [renderStep, ht, hc]
    exact (format_message_infixes _ _ _).2.2.1

/-- **C2 witness.** -/
theorem file_kind_unknown_placeholder_witness :
    get_task_content taskC2 = "⚠️ 未知的任务类型: file" ∧
    (run_scheduler envW [taskC2]).found = true := by
  have h := file_kind_unknown_placeholder taskC2 envW rfl
  exact ⟨h.1, (h.2 (by decide)).1⟩

/-! ## Claim C5: the signed URL construction -/

/-- **C5.** The signed URL: `timestamp` is the epoch-millisecond count as
a decimal string; the token is the percent-encoded Base64 of the
HMAC-SHA256 of `timestamp + "\n" + secret` keyed by the secret; both are
appended as query parameters, with `&` when the base URL already contains
`?` and `?` otherwise. -/
theorem signed_url_construction :
    ∀ (u s : String) (tsMs : Nat), u ≠ "" → s ≠ "" →
      get_signed_url (some u) (some s) tsMs =
        some (u ++ (if '?' ∈ u.data then "&" else "?") ++
          "timestamp=" ++ natRepr tsMs ++ "&sign=" ++
          quote_plus (b64encode (hmacSha256 (utf8 s)
            (utf8 (natRepr tsMs ++ "\n" ++ s))))) := by
  intro u s ts hu hs
  simp only [get_signed_url, hu, hs, or_self, if_false]
  by_cases hq : '?' ∈ u.data <;>
    simp [hq, String.append_assoc]

set_option maxRecDepth 8000 in
/-- **C5 witness.** -/
theorem signed_url_construction_witness :
    get_signed_url (some "https://oapi.dingtalk.com/robot/send?access_token=abc")
        (some "testsecret") 1700000000000 =
      some ("https://oapi.dingtalk.com/robot/send?access_token=abc&timestamp=1700000000000&sign=d043yCasNZ%2BKC1N0lrVg%2BAan0gEIKPvRfzRqMlUUwzk%3D") := by
  rw [signed_url_construction "https://oapi.dingtalk.com/robot/send?access_token=abc"
    "testsecret" 1700000000000 (by decide) (by decide)]
  rfl

/-! ## Claim C4: missing configuration blocks all delivery -/

/-- **C4.** With the secret or the webhook URL missing, signing always
fails, no HTTP POST is performed for any task, and whenever some task was
due (so a send was attempted) the configuration-error diagnostic is
reported. -/
theorem missing_config_no_delivery :
    ∀ (env : Env) (tasks : List TaskItem),
      (env.SECRET = none ∨ env.WEBHOOK_URL = none) →
      (∀ ts, get_signed_url env.WEBHOOK_URL env.SECRET ts = none) ∧
      (run_scheduler env tasks).posts = [] ∧
      ((run_scheduler env tasks).found = true →
        "错误: 缺少 WEBHOOK_URL 或 SECRET 环境变量" ∈ (run_scheduler env tasks).logs) := by
  intro env tasks hmiss
  have hsig : ∀ ts, get_signed_url env.WEBHOOK_URL env.SECRET ts = none := by
    intro ts
    rcases hmiss with h | h <;> rw [h] <;>
      [skip; rcases env.SECRET with _ | s] <;> rfl
  refine ⟨hsig, ?_⟩
  suffices h : ∀ (ts : List TaskItem) (b e : Nat),
      (runTasks env (env.beijing 0) (fmtYmd (env.beijing 0)) ts b e).posts = [] ∧
      ((runTasks env (env.beijing 0) (fmtYmd (env.beijing 0)) ts b e).found = true →
        "错误: 缺少 WEBHOOK_URL 或 SECRET 环境变量" ∈
          (runTasks env (env.beijing 0) (fmtYmd (env.beijing 0)) ts b e).logs) by
    exact h tasks 1 0
  intro ts
  induction ts with
  | nil => intro b e; simp [runTasks]
  | cons task rest ih =>
      intro b e
      cases hdc : dueCheck (env.beijing 0) (fmtYmd (env.beijing 0)) task <;>
        simp only [runTasks, hdc, send_markdown_msg, hsig]
      · exact ⟨(ih _ _).1, fun _ => by simp [(ih _ _).1, List.mem_append]⟩
      · exact ih b e
      · exact ih b e
      · exact ih b e
      · exact ⟨(ih b e).1, fun hf => List.mem_cons_of_mem _ ((ih b e).2 hf)⟩

def envNoSecret : Env :=
  { WEBHOOK_URL := some "https://example.com/hook", SECRET := none,
    template_md := none, beijing := fun _ => dtW, epochMs := fun _ => 0 }

/-- **C4 witness.** -/
theorem missing_config_no_delivery_witness :
    (run_scheduler envNoSecret [taskW]).posts = [] := by
  exact (missing_config_no_delivery envNoSecret [taskW] (Or.inl rfl)).2.1

/-! ## Claim C10: the delivered title comes from the rendered text -/

theorem derive_title_lines_eq :
    ∀ ls : List String, derive_title_lines ls = ((ls.findSome? headingOf).getD "提醒通知") := by
  intro ls
  induction ls with
  | nil => rfl
  | cons l ls ih =>
      simp only [derive_title_lines, headingOf, List.findSome?_cons]
      by_cases h : startsWithHash (pyStrip l) <;> simp [h, ih]

theorem runTasks_title_derived (env : Env) (now : DateTime) (today : String) :
    ∀ (tasks : List TaskItem) (b e : Nat) (p : Post),
      p ∈ (runTasks env now today tasks b e).posts →
      p.markdown_title = derive_title p.markdown_text := by
  intro tasks
  induction tasks with
  | nil => intro b e p hp; simp [runTasks] at hp
  | cons task rest ih =>
      intro b e p hp
      cases hdc : dueCheck now today task <;>
        simp only [runTasks, hdc] at hp
      · rw [List.mem_append] at hp
        rcases hp with hp | hp
        · simp only [send_markdown_msg] at hp
          rcases hsu : get_signed_url env.WEBHOOK_URL env.SECRET (env.epochMs e) with _ | url <;>
            rw [hsu] at hp
          · simp at hp
          · simp only [Option.toList_some, List.mem_singleton] at hp
            subst hp
            rfl
        · exact ih _ _ p hp
      · exact ih _ _ p hp
      · exact ih _ _ p hp
      · exact ih _ _ p hp
      · exact ih _ _ p hp

/-- **C10.** Every delivered `markdown.title` is `derive_title` of the
delivered `markdown.text` (the fully rendered message), never the task's
`title` attribute directly; and `derive_title` is exactly: the first line
whose stripped form starts with `#`, with the leading `#` run and
surrounding whitespace removed, defaulting to the fixed generic label. -/
theorem post_title_from_rendered_text :
    (∀ (env : Env) (tasks : List TaskItem) (p : Post),
        p ∈ (run_scheduler env tasks).posts →
        p.markdown_title = derive_title p.markdown_text) ∧
    (∀ md : String, derive_title md = (firstHeading md).getD "提醒通知") := by
  constructor
  · intro env tasks p hp
    exact runTasks_title_derived env (env.beijing 0) (fmtYmd (env.beijing 0)) tasks 1 0 p hp
  · intro md
    exact derive_title_lines_eq (pySplitlines md)

/-- **C10 witness.** -/
theorem post_title_from_rendered_text_witness :
    (run_scheduler envW [taskW]).posts.map Post.markdown_title =
      (run_scheduler envW [taskW]).posts.map (fun p => derive_title p.markdown_text) :=
  List.map_congr_left (fun p hp => post_title_from_rendered_text.1 envW [taskW] p hp)

/-! ## Claim C8: malformed (non-empty) time strings -/

def taskEmptyTime : TaskItem := { date := some "2026-01-02", time := some "" }

/-- **C8 counterexample.** A date-matching task with `time = ""` has a
present, unparseable time field, yet the run delivers it (the Python
truthiness test treats `""` like an absent time) and reports no error. -/
theorem empty_time_not_skipped_counterexample :
    taskEmptyTime.time = some "" ∧
    parseHM "" = none ∧
    (run_scheduler envW [taskEmptyTime]).posts.length = 1 ∧
    (run_scheduler envW [taskEmptyTime]).logs = [] := by
  refine ⟨rfl, rfl, by decide, by decide⟩

/-- **C8 (amended).** For a date-matching task whose time field is present
and *non-empty* but does not parse as hour:minute, the run logs the
per-task format error, delivers nothing for that task, and the rest of the
run (posts and the found flag) is exactly as if the task were absent. -/
theorem malformed_time_task_skipped :
    ∀ (env : Env) (pre post : List TaskItem) (task : TaskItem) (t : String),
      task.date = some (fmtYmd (env.beijing 0)) →
      task.time = some t → t ≠ "" → parseHM t = none →
      (run_scheduler env (pre ++ task :: post)).posts =
        (run_scheduler env (pre ++ post)).posts ∧
      (run_scheduler env (pre ++ task :: post)).found =
        (run_scheduler env (pre ++ post)).found ∧
      ("时间格式错误: " ++ t ++ "，应为 HH:MM") ∈
        (run_scheduler env (pre ++ task :: post)).logs := by
  intro env pre post task t hd ht hne hp
  have hdc : dueCheck (env.beijing 0) (fmtYmd (env.beijing 0)) task =
      DueResult.timeFormatError t := by
    simp [dueCheck, hd, ht, hne, hp]
  suffices h : ∀ (b e : Nat),
      (runTasks env (env.beijing 0) (fmtYmd (env.beijing 0)) (pre ++ task :: post) b e).posts =
        (runTasks env (env.beijing 0) (fmtYmd (env.beijing 0)) (pre ++ post) b e).posts ∧
      (runTasks env (env.beijing 0) (fmtYmd (env.beijing 0)) (pre ++ task :: post) b e).found =
        (runTasks env (env.beijing 0) (fmtYmd (env.beijing 0)) (pre ++ post) b e).found ∧
      ("时间格式错误: " ++ t ++ "，应为 HH:MM") ∈
        (runTasks env (env.beijing 0) (fmtYmd (env.beijing 0)) (pre ++ task :: post) b e).logs by
    exact h 1 0
  induction pre with
  | nil =>
      intro b e
      simp only [List.nil_append, runTasks, hdc]
      exact ⟨trivial, trivial, List.mem_cons_self _ _⟩
  | cons c cs ih =>
      intro b e
      cases hdcc : dueCheck (env.beijing 0) (fmtYmd (env.beijing 0)) c <;>
        simp only [List.cons_append, runTasks, hdcc, List.append_eq]
      · have h := ih (renderStep env (env.beijing 0) b ((c.title).getD "日程提醒")
          (get_task_content c) (mentions_text c)).2.1 (e + 1)
        refine ⟨by rw [h.1], by trivial, ?_⟩
        simp only [List.mem_append]
        exact Or.inr h.2.2
      · exact ih b e
      · exact ih b e
      · exact ih b e
      · exact ⟨(ih b e).1, (ih b e).2.1, List.mem_cons_of_mem _ (ih b e).2.2⟩

/-- **C8 witness.** -/
theorem malformed_time_task_skipped_witness :
    (run_scheduler envW [{ date := some "2026-01-02", time := some "9h30" }]).posts =
      (run_scheduler envW []).posts ∧
    ("时间格式错误: " ++ "9h30" ++ "，应为 HH:MM") ∈
      (run_scheduler envW [{ date := some "2026-01-02", time := some "9h30" }]).logs := by
  have h := malformed_time_task_skipped envW []
    [] { date := some "2026-01-02", time := some "9h30" } "9h30"
    (by decide) rfl (by decide) (by decide)
  exact ⟨h.1, h.2.2⟩

/-! ## Claim C1: the due decision -/

/-- The claim's "elapsed minutes now − datetime(date, time)", as an exact
rational (`diff.total_seconds() / 60`; both tasks share `now`'s date). -/
def elapsedMinutes (now : DateTime) (hh mm : Nat) : ℚ :=
  ((microOfDay now : ℚ) - (((hh * 3600 + mm * 60) * 1000000 : Nat) : ℚ)) / 60000000

/-- Claim C1 as stated: due iff the date matches and either no time field,
or the time parses as HH:MM with 0 ≤ elapsed minutes ≤ 15. -/
def claimC1 (now : DateTime) (today_str : String) (task : TaskItem) : Prop :=
  task.date = some today_str ∧
  (task.time = none ∨
    ∃ t hh mm, task.time = some t ∧ parseHM t = some (hh, mm) ∧
      0 ≤ elapsedMinutes now hh mm ∧ elapsedMinutes now hh mm ≤ 15)

theorem elapsed_bounds_iff (now : DateTime) (hh mm : Nat) :
    (0 ≤ elapsedMinutes now hh mm ∧ elapsedMinutes now hh mm ≤ 15) ↔
      (0 ≤ ((microOfDay now : Int) - (((hh * 3600 + mm * 60) * 1000000 : Nat) : Int)) ∧
       ((microOfDay now : Int) - (((hh * 3600 + mm * 60) * 1000000 : Nat) : Int)) ≤ 900000000) := by
  have h6 : (0 : ℚ) < 60000000 := by norm_num
  unfold elapsedMinutes
  rw [le_div_iff₀ h6, div_le_iff₀ h6, zero_mul]
  constructor <;> intro h <;> constructor
  · exact_mod_cast h.1
  · have h2 := h.2
    have h3 : (((microOfDay now : Int) - (((hh * 3600 + mm * 60) * 1000000 : Nat) : Int)) : ℚ) ≤
        900000000 := by
      push_cast at h2 ⊢
      linarith
    exact_mod_cast h3
  · exact_mod_cast h.1
  · have h2 := h.2
    have h3 : ((microOfDay now : ℚ)) - (((hh * 3600 + mm * 60) * 1000000 : Nat) : ℚ) ≤
        900000000 := by
      exact_mod_cast h2
    push_cast at h3 ⊢
    linarith

/-- **C1 counterexample.** A date-matching task with `time = ""` is marked
due and delivered, although its time field is present and does not parse
as HH:MM, so claim C1's "due iff" fails (Python truthiness treats the
empty time string like an absent one). -/
theorem empty_time_claim_counterexample :
    dueCheck dtW "2026-01-02" taskEmptyTime = DueResult.due ∧
    ¬ claimC1 dtW "2026-01-02" taskEmptyTime := by
  refine ⟨rfl, ?_⟩
  rintro ⟨-, h | h⟩
  · exact Option.noConfusion (h : (some "" : Option String) = none)
  · obtain ⟨t, hh, mm, ht, hp, -, -⟩ := h
    have ht' : t = "" := by
      have h2 : (some "" : Option String) = some t := ht
      injection h2 with h2
      exact h2.symm
    subst ht'
    exact Option.noConfusion (hp : (none : Option (Nat × Nat)) = some (hh, mm))

/-- **C1 (amended).** The scheduler marks a task due — and proceeds to the
delivery attempt — iff claim C1 holds *or* the task's date matches and its
time field is the empty string (treated like an absent time by the Python
truthiness test). -/
theorem due_decision_characterization :
    (∀ (now : DateTime) (today_str : String) (task : TaskItem),
      dueCheck now today_str task = DueResult.due ↔
        claimC1 now today_str task ∨
          (task.date = some today_str ∧ task.time = some "")) ∧
    (∀ (env : Env) (task : TaskItem),
      (run_scheduler env [task]).found = true ↔
        dueCheck (env.beijing 0) (fmtYmd (env.beijing 0)) task = DueResult.due) := by
  constructor
  · intro now today task
    unfold claimC1
    by_cases hdate : task.date = some today
    · cases htime : task.time with
      | none => simp [dueCheck, hdate, htime]
      | some t =>
          by_cases hemp : t = ""
          · subst hemp
            simp [dueCheck, hdate, htime]
          · cases hpm : parseHM t with
            | none =>
                have hL : dueCheck now today task = DueResult.timeFormatError t := by
                  simp [dueCheck, hdate, htime, hemp, hpm]
                rw [hL]
                refine iff_of_false (by simp) ?_
                rintro (⟨-, hcase⟩ | ⟨-, htt⟩)
                · rcases hcase with hnone | ⟨t', hh', mm', ht', hp', -, -⟩
                  · exact Option.noConfusion hnone
                  · injection ht' with ht'
                    subst ht'
                    rw [hpm] at hp'
                    exact Option.noConfusion hp'
                · injection htt with htt
                  exact hemp htt
            | some pr =>
                obtain ⟨hh, mm⟩ := pr
                have hL : dueCheck now today task =
                    (if ((microOfDay now : Int) -
                          (((hh * 3600 + mm * 60) * 1000000 : Nat) : Int)) < 0 then
                       DueResult.skipFuture
                     else if ((microOfDay now : Int) -
                          (((hh * 3600 + mm * 60) * 1000000 : Nat) : Int)) > 900000000 then
                       DueResult.skipExpired
                     else DueResult.due) := by
                  simp [dueCheck, hdate, htime, hemp, hpm]
                have hR : ((task.date = some today ∧ ((some t : Option String) = none ∨
                      ∃ t' hh' mm', (some t : Option String) = some t' ∧
                        parseHM t' = some (hh', mm') ∧
                        0 ≤ elapsedMinutes now hh' mm' ∧ elapsedMinutes now hh' mm' ≤ 15)) ∨
                    (task.date = some today ∧ (some t : Option String) = some "")) ↔
                    (0 ≤ ((microOfDay now : Int) -
                        (((hh * 3600 + mm * 60) * 1000000 : Nat) : Int)) ∧
                     ((microOfDay now : Int) -
                        (((hh * 3600 + mm * 60) * 1000000 : Nat) : Int)) ≤ 900000000) := by
                  constructor
                  · rintro (⟨-, hcase⟩ | ⟨-, htt⟩)
                    · rcases hcase with hnone | ⟨t', hh', mm', ht', hp', hlo, hhi⟩
                      · exact Option.noConfusion hnone
                      · injection ht' with ht'
                        subst ht'
                        rw [hpm] at hp'
                        injection hp' with hp'
                        injection hp' with hp1 hp2
                        subst hp1
                        subst hp2
                        exact (elapsed_bounds_iff now hh mm).mp ⟨hlo, hhi⟩
                    · injection htt with htt
                      exact absurd htt hemp
                  · intro hdiff
                    exact Or.inl ⟨hdate, Or.inr ⟨t, hh, mm, rfl, hpm,
                      ((elapsed_bounds_iff now hh mm).mpr hdiff).1,
                      ((elapsed_bounds_iff now hh mm).mpr hdiff).2⟩⟩
                rw [hL, hR]
                split_ifs with h1 h2
                · exact iff_of_false (by simp) (by omega)
                · exact iff_of_false (by simp) (by omega)
                · exact iff_of_true rfl ⟨by omega, by omega⟩
    · simp [dueCheck, hdate]
  · intro env task
    cases hdc : dueCheck (env.beijing 0) (fmtYmd (env.beijing 0)) task <;>
      simp [run_scheduler, runTasks, hdc]

/-- **C1 witness** (for the amended equivalence, at scenario A of the
spec: task at 09:00, run at 09:10 with elapsed 10 minutes). -/
theorem due_decision_characterization_witness :
    dueCheck ⟨2026, 1, 2, 9, 10, 0, 0⟩ "2026-01-02"
      { date := some "2026-01-02", time := some "09:00" } = DueResult.due ∧
    (run_scheduler envW [taskW]).found = true := by
  constructor
  · rw [(due_decision_characterization).1 ⟨2026, 1, 2, 9, 10, 0, 0⟩ "2026-01-02"
      { date := some "2026-01-02", time := some "09:00" }]
    refine Or.inl ⟨rfl, Or.inr ⟨"09:00", 9, 0, rfl, by decide, ?_, ?_⟩⟩ <;>
      norm_num [elapsedMinutes, microOfDay]
  · rw [(due_decision_characterization).2 envW taskW]
    rfl

/-! ## Claim C3: the rendered timestamp and the canonical now -/

theorem runTasks_eq_spec_of_renderStep (env : Env) (now : DateTime) (today : String)
    (hrs : ∀ (b : Nat) (t c m : String),
      renderStep env now b t c m = renderStepSpec env now b t c m) :
    ∀ (ts : List TaskItem) (b e : Nat),
      runTasks env now today ts b e = runTasksSpec env now today ts b e := by
  intro ts
  induction ts with
  | nil => intro b e; rfl
  | cons task rest ih =>
      intro b e
      cases hdc : dueCheck now today task <;>
        simp only [runTasks, runTasksSpec, hdc]
      · rw [hrs, ih]
      · exact ih b e
      · exact ih b e
      · exact ih b e
      · rw [ih]

/-- **C3 (amended).** In the external-template path the rendered timestamp
is always the canonical `now`; but the built-in layout re-reads the wall
clock at render time (`get_beijing_time()` inside `format_message`), so a
run renders exactly as the canonical-now renderer only when the clock has
not advanced past the canonical read (or when a template is present, which
avoids the re-read). -/
theorem canonical_now_rendering :
    ∀ (env : Env) (tasks : List TaskItem),
      ((∀ i, env.beijing i = env.beijing 0) →
        run_scheduler env tasks = run_scheduler_spec env tasks) ∧
      (∀ tpl, env.template_md = some (some tpl) →
        run_scheduler env tasks = run_scheduler_spec env tasks) := by
  intro env tasks
  constructor
  · intro hclock
    refine runTasks_eq_spec_of_renderStep env (env.beijing 0) (fmtYmd (env.beijing 0))
      (fun b t c m => ?_) tasks 1 0
    unfold renderStep renderStepSpec
    cases env.template_md with
    | none => rw [hclock b]
    | some tm =>
        cases tm with
        | none => rw [hclock b]
        | some tpl => rfl
  · intro tpl htpl
    refine runTasks_eq_spec_of_renderStep env (env.beijing 0) (fmtYmd (env.beijing 0))
      (fun b t c m => ?_) tasks 1 0
    unfold renderStep renderStepSpec
    rw [htpl]

/-- **C3 witness.** -/
theorem canonical_now_rendering_witness :
    run_scheduler envW [taskW] = run_scheduler_spec envW [taskW] :=
  (canonical_now_rendering envW [taskW]).1 (fun _ => rfl)

def envC3 : Env :=
  { WEBHOOK_URL := some "https://example.com/hook", SECRET := some "testsecret",
    template_md := none, beijing := fun i => if i = 0 then dtW else dtW1,
    epochMs := fun _ => 1700000000000 }

set_option maxRecDepth 20000 in
/-- **C3 counterexample.** With no template, a clock that advances one
second between the canonical read and the render makes `format_message`
embed the later instant: the delivered text is the built-in layout at
`09:00:01`, not at the canonical `09:00:00`, and the run differs from the
canonical-now renderer. -/
theorem builtin_rereads_clock_counterexample :
    (run_scheduler envC3 [taskW]).posts.map Post.markdown_text =
      [format_message "日程提醒" "# greetings\nhello" dtW1] ∧
    format_message "日程提醒" "# greetings\nhello" dtW1 ≠
      format_message "日程提醒" "# greetings\nhello" dtW ∧
    run_scheduler envC3 [taskW] ≠ run_scheduler_spec envC3 [taskW] := by
  refine ⟨by decide, by decide, by decide⟩

/-! ## Claim C6: template substitution and the built-in layout.

The hygiene condition under which sequential `str.replace` equals
simultaneous substitution: a string is `noLB` when it contains no `{`
(so it can contain no placeholder token and no token can straddle it). -/

def noLB (s : String) : Prop := ∀ c ∈ s.data, c ≠ lbrace

instance (s : String) : Decidable (noLB s) := by
  unfold noLB
  infer_instance

theorem digitChar_ne_lbrace : ∀ d, digitChar d ≠ lbrace := by
  intro d
  unfold digitChar
  split <;> decide

theorem decDigitsAux_ne_lbrace :
    ∀ (fuel n : Nat) (acc : List Char), (∀ c ∈ acc, c ≠ lbrace) →
      ∀ c ∈ decDigitsAux fuel n acc, c ≠ lbrace := by
  intro fuel
  induction fuel with
  | zero =>
      intro n acc hacc c hc
      simp only [decDigitsAux] at hc
      exact hacc c hc
  | succ f ih =>
      intro n acc hacc c hc
      by_cases h10 : n < 10
      · simp only [decDigitsAux, if_pos h10] at hc
        rcases List.mem_cons.mp hc with rfl | hc
        · exact digitChar_ne_lbrace n
        · exact hacc c hc
      · simp only [decDigitsAux, if_neg h10] at hc
        refine ih (n / 10) _ ?_ c hc
        intro c' hc'
        rcases List.mem_cons.mp hc' with rfl | hc'
        · exact digitChar_ne_lbrace _
        · exact hacc c' hc'

theorem noLB_natRepr (n : Nat) : noLB (natRepr n) := by
  intro c hc
  exact decDigitsAux_ne_lbrace (n + 1) n [] (by simp) c hc

theorem noLB_append {a b : String} (ha : noLB a) (hb : noLB b) : noLB (a ++ b) := by
  intro c hc
  rw [String.data_append] at hc
  rcases List.mem_append.mp hc with h | h
  · exact ha c h
  · exact hb c h

theorem noLB_pad2 (n : Nat) : noLB (pad2 n) := by
  unfold pad2
  split
  · exact noLB_append (by decide) (noLB_natRepr n)
  · exact noLB_natRepr n

theorem noLB_pad4 (n : Nat) : noLB (pad4 n) := by
  unfold pad4
  split
  · exact noLB_append (by decide) (noLB_natRepr n)
  · split
    · exact noLB_append (by decide) (noLB_natRepr n)
    · split
      · exact noLB_append (by decide) (noLB_natRepr n)
      · exact noLB_natRepr n

theorem noLB_fmtYmdHms (dt : DateTime) : noLB (fmtYmdHms dt) := by
  unfold fmtYmdHms fmtYmd
  exact noLB_append (noLB_append (noLB_append (noLB_append (noLB_append (noLB_append
    (noLB_append (noLB_append (noLB_append (noLB_append (noLB_pad4 dt.year) (by decide))
      (noLB_pad2 dt.month)) (by decide)) (noLB_pad2 dt.day)) (by decide))
        (noLB_pad2 dt.hour)) (by decide)) (noLB_pad2 dt.minute)) (by decide))
          (noLB_pad2 dt.second)

/-! Scan lemmas for `replaceGo`.  `replaceL` fixes the fuel at the input
length, which every mismatch step preserves exactly. -/

def replaceL (p₀ : Char) (p v s : List Char) : List Char :=
  replaceGo p₀ p v s.length s

theorem replaceGo_fuel_irrel (p₀ : Char) (p v : List Char) :
    ∀ (fuel₁ : Nat) (fuel₂ : Nat) (s : List Char),
      s.length ≤ fuel₁ → s.length ≤ fuel₂ →
      replaceGo p₀ p v fuel₁ s = replaceGo p₀ p v fuel₂ s := by
  intro fuel₁
  induction fuel₁ with
  | zero =>
      intro fuel₂ s h1 h2
      have : s = [] := List.eq_nil_of_length_eq_zero (Nat.le_zero.mp h1)
      subst this
      cases fuel₂ <;> rfl
  | succ f ih =>
      intro fuel₂ s h1 h2
      cases s with
      | nil => cases fuel₂ <;> rfl
      | cons c cs =>
          cases fuel₂ with
          | zero => simp at h2
          | succ f₂ =>
              simp only [replaceGo]
              by_cases hpre : (p₀ :: p).isPrefixOf (c :: cs) = true
              · rw [if_pos hpre, if_pos hpre]
                have hd : (cs.drop p.length).length ≤ f := by
                  have := List.length_drop p.length cs
                  simp only [List.length_cons] at h1
                  omega
                have hd2 : (cs.drop p.length).length ≤ f₂ := by
                  have := List.length_drop p.length cs
                  simp only [List.length_cons] at h2
                  omega
                rw [ih f₂ _ hd hd2]
              · rw [if_neg hpre, if_neg hpre]
                have hd : cs.length ≤ f := by
                  simp only [List.length_cons] at h1
                  omega
                have hd2 : cs.length ≤ f₂ := by
                  simp only [List.length_cons] at h2
                  omega
                rw [ih f₂ _ hd hd2]

theorem replaceL_skip (p₀ : Char) (p v : List Char) :
    ∀ (s rest : List Char),
      (∀ i, i < s.length → (p₀ :: p).isPrefixOf (List.drop i s ++ rest) = false) →
      replaceL p₀ p v (s ++ rest) = s ++ replaceL p₀ p v rest := by
  intro s
  induction s with
  | nil => intro rest h; rfl
  | cons c s ih =>
      intro rest h
      have h0 : (p₀ :: p).isPrefixOf (c :: (s ++ rest)) = false := by
        have := h 0 (by simp)
        simpa using this
      show replaceGo p₀ p v (c :: (s ++ rest)).length (c :: (s ++ rest)) = _
      simp only [List.length_cons, replaceGo, h0, Bool.false_eq_true, if_false]
      have : replaceGo p₀ p v (s ++ rest).length (s ++ rest) = s ++ replaceL p₀ p v rest :=
        ih rest (fun i hi => by
          have := h (i + 1) (by simp; omega)
          simpa using this)
      rw [List.cons_append]
      rw [this]

theorem replaceL_hit (p₀ : Char) (p v rest : List Char) :
    replaceL p₀ p v ((p₀ :: p) ++ rest) = v ++ replaceL p₀ p v rest := by
  have hpre : (p₀ :: p).isPrefixOf ((p₀ :: p) ++ rest) = true := by
    induction p generalizing p₀ with
    | nil => simp [List.isPrefixOf]
    | cons q qs ih => simp [List.isPrefixOf, List.cons_append, ih q]
  show replaceGo p₀ p v ((p₀ :: p) ++ rest).length ((p₀ :: p) ++ rest) = _
  rw [List.cons_append]
  simp only [List.length_cons, replaceGo]
  rw [show (p₀ :: (p ++ rest)) = (p₀ :: p) ++ rest from rfl, if_pos hpre]
  have hdrop : (p ++ rest).drop p.length = rest := List.drop_left p rest
  rw [hdrop]
  congr 1
  exact replaceGo_fuel_irrel p₀ p v _ _ rest
    (by simp only [List.length_append]; omega) le_rfl

theorem replaceL_noHit (p₀ : Char) (p v : List Char) (s : List Char)
    (h : ∀ i, (p₀ :: p).isPrefixOf (List.drop i s) = false) :
    replaceL p₀ p v s = s := by
  have := replaceL_skip p₀ p v s [] (fun i hi => by simpa using h i)
  simpa [replaceL, replaceGo] using this

theorem isPrefixOf_getD (d : Char) :
    ∀ (l₁ l₂ : List Char), l₁.isPrefixOf l₂ = true →
      ∀ j, j < l₁.length → l₁.getD j d = l₂.getD j d := by
  intro l₁
  induction l₁ with
  | nil => intro l₂ h j hj; simp at hj
  | cons a as ih =>
      intro l₂ h j hj
      cases l₂ with
      | nil => simp [List.isPrefixOf] at h
      | cons b bs =>
          simp only [List.isPrefixOf, Bool.and_eq_true, beq_iff_eq] at h
          cases j with
          | zero => simpa using h.1
          | succ j =>
              simp only [List.getD_cons_succ]
              exact ih bs h.2 j (by simpa using hj)

theorem getD_drop (d : Char) :
    ∀ (l : List Char) (n m : Nat), (l.drop n).getD m d = l.getD (n + m) d := by
  intro l
  induction l with
  | nil => intro n m; simp
  | cons c cs ih =>
      intro n m
      cases n with
      | zero => simp
      | succ n =>
          simp only [List.drop_succ_cons, Nat.succ_add, List.getD_cons_succ]
          exact ih n m

/-- A concrete token `t` in which the pattern mismatches strictly inside
`t` at every start position admits no pattern hit that starts within `t`,
whatever follows. -/
theorem noHitPre_of_mismatch (pat t : List Char)
    (hmis : ∀ i, i < t.length → ∃ j, j < pat.length ∧ j < t.length - i ∧
      pat.getD j 'a' ≠ t.getD (i + j) 'a') :
    ∀ (rest : List Char) (i : Nat), i < t.length →
      pat.isPrefixOf (List.drop i t ++ rest) = false := by
  intro rest i hi
  by_contra hcon
  have hpre : pat.isPrefixOf (List.drop i t ++ rest) = true := by
    cases h : pat.isPrefixOf (List.drop i t ++ rest)
    · exact absurd h hcon
    · rfl
  obtain ⟨j, hj1, hj2, hne⟩ := hmis i hi
  have h1 := isPrefixOf_getD 'a' pat _ hpre j hj1
  have hlen : j < (List.drop i t).length := by
    rw [List.length_drop]
    omega
  rw [List.getD_append _ _ _ _ hlen, getD_drop] at h1
  exact hne h1

/-- No pattern hit starts inside a `{`-free segment (the pattern's head is
`{`), whatever follows. -/
theorem noHitPre_of_headFree (p₀ : Char) (p : List Char) :
    ∀ (s rest : List Char), (∀ c ∈ s, c ≠ p₀) →
      ∀ i, i < s.length → (p₀ :: p).isPrefixOf (List.drop i s ++ rest) = false := by
  intro s
  induction s with
  | nil => intro rest h i hi; simp at hi
  | cons c cs ih =>
      intro rest h i hi
      cases i with
      | zero =>
          simp only [List.drop_zero, List.cons_append, List.isPrefixOf,
            Bool.and_eq_true, Bool.and_eq_false_iff]
          left
          simpa using fun e => (h c (by simp) e.symm : False)
      | succ i =>
          simp only [List.drop_succ_cons]
          exact ih rest (fun c' hc' => h c' (List.mem_cons_of_mem _ hc')) i
            (by simpa using hi)

theorem noHit_of_headFree (p₀ : Char) (p : List Char) (s : List Char)
    (h : ∀ c ∈ s, c ≠ p₀) :
    ∀ i, (p₀ :: p).isPrefixOf (List.drop i s) = false := by
  intro i
  by_cases hi : i < s.length
  · have := noHitPre_of_headFree p₀ p s [] h i hi
    simpa using this
  · rw [List.drop_eq_nil_of_le (by omega)]
    rfl

theorem noHit_append (pat : List Char) (s rest : List Char)
    (h1 : ∀ i, i < s.length → pat.isPrefixOf (List.drop i s ++ rest) = false)
    (h2 : ∀ i, pat.isPrefixOf (List.drop i rest) = false) :
    ∀ i, pat.isPrefixOf (List.drop i (s ++ rest)) = false := by
  intro i
  by_cases hi : i < s.length
  · rw [List.drop_append_of_le_length (le_of_lt hi)]
    exact h1 i hi
  · have : i = s.length + (i - s.length) := by omega
    rw [this, List.drop_append]
    exact h2 (i - s.length)

theorem headFree_append {p₀ : Char} {a b : List Char}
    (ha : ∀ c ∈ a, c ≠ p₀) (hb : ∀ c ∈ b, c ≠ p₀) : ∀ c ∈ a ++ b, c ≠ p₀ := by
  intro c hc
  rcases List.mem_append.mp hc with h | h
  · exact ha c h
  · exact hb c h

/-- One full pass of `str.replace` over `A ++ pattern ++ b`: the pattern's
single occurrence is replaced, everything else is untouched. -/
theorem replaceL_pass (p₀ : Char) (p v : List Char) (A b : List Char)
    (hA : ∀ c ∈ A, c ≠ p₀)
    (hb : ∀ i, (p₀ :: p).isPrefixOf (List.drop i b) = false) :
    replaceL p₀ p v (A ++ ((p₀ :: p) ++ b)) = A ++ (v ++ b) := by
  rw [replaceL_skip p₀ p v A ((p₀ :: p) ++ b) (noHitPre_of_headFree p₀ p A _ hA)]
  rw [replaceL_hit]
  rw [replaceL_noHit p₀ p v b hb]

def tokTitleTail : List Char := "\x7btitle\x7d\x7d".data

def tokDatetimeTail : List Char := "\x7bdatetime\x7d\x7d".data

def tokContentTail : List Char := "\x7bcontent\x7d\x7d".data

def tokMentionsTail : List Char := "\x7bmentions\x7d\x7d".data

theorem tokTitle_data : tokTitle.data = lbrace :: tokTitleTail := rfl

theorem tokDatetime_data : tokDatetime.data = lbrace :: tokDatetimeTail := rfl

theorem tokContent_data : tokContent.data = lbrace :: tokContentTail := rfl

theorem tokMentions_data : tokMentions.data = lbrace :: tokMentionsTail := rfl

/-- The four sequential replaces on the canonical one-occurrence template
shape: each token is replaced by its value, every other character is kept.
The values substituted before the last pass must be `{`-free (the last
value is never rescanned). -/
theorem subst_chain (a0 a1 a2 a3 a4 vt vd vc vm : List Char)
    (h0 : ∀ c ∈ a0, c ≠ lbrace) (h1 : ∀ c ∈ a1, c ≠ lbrace)
    (h2 : ∀ c ∈ a2, c ≠ lbrace) (h3 : ∀ c ∈ a3, c ≠ lbrace)
    (h4 : ∀ c ∈ a4, c ≠ lbrace)
    (hvt : ∀ c ∈ vt, c ≠ lbrace) (hvd : ∀ c ∈ vd, c ≠ lbrace)
    (hvc : ∀ c ∈ vc, c ≠ lbrace) :
    replaceL lbrace tokMentionsTail vm
      (replaceL lbrace tokContentTail vc
        (replaceL lbrace tokDatetimeTail vd
          (replaceL lbrace tokTitleTail vt
            (a0 ++ ((lbrace :: tokTitleTail) ++ (a1 ++ ((lbrace :: tokDatetimeTail) ++
              (a2 ++ ((lbrace :: tokContentTail) ++
                (a3 ++ ((lbrace :: tokMentionsTail) ++ a4)))))))))))
      = a0 ++ (vt ++ (a1 ++ (vd ++ (a2 ++ (vc ++ (a3 ++ (vm ++ a4))))))) := by
  have hb1 : ∀ i, (lbrace :: tokTitleTail).isPrefixOf
      (List.drop i (a1 ++ ((lbrace :: tokDatetimeTail) ++ (a2 ++ ((lbrace :: tokContentTail) ++
        (a3 ++ ((lbrace :: tokMentionsTail) ++ a4))))))) = false := by
    refine noHit_append _ _ _ (noHitPre_of_headFree _ _ a1 _ h1) ?_
    refine noHit_append _ _ _ (fun i hi => noHitPre_of_mismatch _ _ (by decide) _ i hi) ?_
    refine noHit_append _ _ _ (noHitPre_of_headFree _ _ a2 _ h2) ?_
    refine noHit_append _ _ _ (fun i hi => noHitPre_of_mismatch _ _ (by decide) _ i hi) ?_
    refine noHit_append _ _ _ (noHitPre_of_headFree _ _ a3 _ h3) ?_
    refine noHit_append _ _ _ (fun i hi => noHitPre_of_mismatch _ _ (by decide) _ i hi) ?_
    exact noHit_of_headFree _ _ a4 h4
  have hb2 : ∀ i, (lbrace :: tokDatetimeTail).isPrefixOf
      (List.drop i (a2 ++ ((lbrace :: tokContentTail) ++
        (a3 ++ ((lbrace :: tokMentionsTail) ++ a4))))) = false := by
    refine noHit_append _ _ _ (noHitPre_of_headFree _ _ a2 _ h2) ?_
    refine noHit_append _ _ _ (fun i hi => noHitPre_of_mismatch _ _ (by decide) _ i hi) ?_
    refine noHit_append _ _ _ (noHitPre_of_headFree _ _ a3 _ h3) ?_
    refine noHit_append _ _ _ (fun i hi => noHitPre_of_mismatch _ _ (by decide) _ i hi) ?_
    exact noHit_of_headFree _ _ a4 h4
  have hb3 : ∀ i, (lbrace :: tokContentTail).isPrefixOf
      (List.drop i (a3 ++ ((lbrace :: tokMentionsTail) ++ a4))) = false := by
    refine noHit_append _ _ _ (noHitPre_of_headFree _ _ a3 _ h3) ?_
    refine noHit_append _ _ _ (fun i hi => noHitPre_of_mismatch _ _ (by decide) _ i hi) ?_
    exact noHit_of_headFree _ _ a4 h4
  have hb4 : ∀ i, (lbrace :: tokMentionsTail).isPrefixOf (List.drop i a4) = false :=
    noHit_of_headFree _ _ a4 h4
  rw [replaceL_pass lbrace tokTitleTail vt a0 _ h0 hb1]
  have r1 : a0 ++ (vt ++ (a1 ++ ((lbrace :: tokDatetimeTail) ++ (a2 ++
      ((lbrace :: tokContentTail) ++ (a3 ++ ((lbrace :: tokMentionsTail) ++ a4))))))) =
      (a0 ++ (vt ++ a1)) ++ ((lbrace :: tokDatetimeTail) ++ (a2 ++
      ((lbrace :: tokContentTail) ++ (a3 ++ ((lbrace :: tokMentionsTail) ++ a4))))) := by
    simp [List.append_assoc]
  rw [r1, replaceL_pass lbrace tokDatetimeTail vd (a0 ++ (vt ++ a1)) _
    (headFree_append h0 (headFree_append hvt h1)) hb2]
  have r2 : (a0 ++ (vt ++ a1)) ++ (vd ++ (a2 ++ ((lbrace :: tokContentTail) ++
      (a3 ++ ((lbrace :: tokMentionsTail) ++ a4))))) =
      ((a0 ++ (vt ++ a1)) ++ (vd ++ a2)) ++ ((lbrace :: tokContentTail) ++
      (a3 ++ ((lbrace :: tokMentionsTail) ++ a4))) := by
    simp [List.append_assoc]
  rw [r2, replaceL_pass lbrace tokContentTail vc ((a0 ++ (vt ++ a1)) ++ (vd ++ a2)) _
    (headFree_append (headFree_append h0 (headFree_append hvt h1))
      (headFree_append hvd h2)) hb3]
  have r3 : ((a0 ++ (vt ++ a1)) ++ (vd ++ a2)) ++ (vc ++ (a3 ++
      ((lbrace :: tokMentionsTail) ++ a4))) =
      (((a0 ++ (vt ++ a1)) ++ (vd ++ a2)) ++ (vc ++ a3)) ++
      ((lbrace :: tokMentionsTail) ++ a4) := by
    simp [List.append_assoc]
  rw [r3, replaceL_pass lbrace tokMentionsTail vm
    (((a0 ++ (vt ++ a1)) ++ (vd ++ a2)) ++ (vc ++ a3)) _
    (headFree_append (headFree_append (headFree_append h0 (headFree_append hvt h1))
      (headFree_append hvd h2)) (headFree_append hvc h3)) hb4]
  simp [List.append_assoc]

theorem data_mk (l : List Char) : (String.mk l).data = l := rfl

theorem pyReplace_eq_replaceL (p₀ : Char) (p : List Char) (s pat v : String)
    (hp : pat.data = p₀ :: p) :
    pyReplace s pat v = String.mk (replaceL p₀ p v.data s.data) := by
  simp only [pyReplace, hp, replaceL]

/-- The external-template path on the canonical one-occurrence template
shape substitutes each placeholder by its value (the `{{datetime}}` value
being the canonical `now`) and keeps all non-placeholder text. -/
theorem render_template_subst (env : Env) (now : DateTime) (bIdx : Nat)
    (A0 A1 A2 A3 A4 title content mentions : String)
    (htpl : env.template_md = some (some (A0 ++ (tokTitle ++ (A1 ++ (tokDatetime ++
      (A2 ++ (tokContent ++ (A3 ++ (tokMentions ++ A4))))))))))
    (h0 : noLB A0) (h1 : noLB A1) (h2 : noLB A2) (h3 : noLB A3) (h4 : noLB A4)
    (ht : noLB title) (hc : noLB content) :
    (renderStep env now bIdx title content mentions).1 =
      A0 ++ (title ++ (A1 ++ (fmtYmdHms now ++ (A2 ++ (content ++
        (A3 ++ (mentions ++ A4))))))) := by
  simp only [renderStep, htpl]
  rw [pyReplace_eq_replaceL lbrace tokTitleTail _ _ _ tokTitle_data]
  rw [pyReplace_eq_replaceL lbrace tokDatetimeTail _ _ _ tokDatetime_data]
  rw [pyReplace_eq_replaceL lbrace tokContentTail _ _ _ tokContent_data]
  rw [pyReplace_eq_replaceL lbrace tokMentionsTail _ _ _ tokMentions_data]
  simp only [data_mk, String.data_append, tokTitle_data, tokDatetime_data,
    tokContent_data, tokMentions_data]
  rw [subst_chain A0.data A1.data A2.data A3.data A4.data
    title.data (fmtYmdHms now).data content.data mentions.data
    h0 h1 h2 h3 h4 ht (noLB_fmtYmdHms now) hc]
  apply String.ext
  simp only [data_mk, String.data_append, List.append_assoc]

/-- **C6 (amended).** With a template present whose text consists of the
four placeholder tokens each occurring once amid `{`-free text, and values
that are `{`-free, rendering substitutes each token by its value —
`{{datetime}}` by the canonical now — and leaves all non-placeholder
template text unchanged (substitution being sequential, a value containing
a later token would itself be substituted, see the counterexample).  With
no template, rendering is the built-in layout, which contains the title,
the render-time timestamp, the content, and the fixed `HMAC-SHA256`
scheme label. -/
theorem rendering_substitution :
    (∀ (env : Env) (now : DateTime) (bIdx : Nat)
        (A0 A1 A2 A3 A4 title content mentions : String),
      env.template_md = some (some (A0 ++ (tokTitle ++ (A1 ++ (tokDatetime ++
        (A2 ++ (tokContent ++ (A3 ++ (tokMentions ++ A4))))))))) →
      noLB A0 → noLB A1 → noLB A2 → noLB A3 → noLB A4 → noLB title → noLB content →
      (renderStep env now bIdx title content mentions).1 =
        A0 ++ (title ++ (A1 ++ (fmtYmdHms now ++ (A2 ++ (content ++
          (A3 ++ (mentions ++ A4)))))))) ∧
    (∀ (env : Env) (now : DateTime) (bIdx : Nat) (title content mentions : String),
      env.template_md = none →
      (renderStep env now bIdx title content mentions).1 =
        format_message title content (env.beijing bIdx) ∧
      title.data <:+: (renderStep env now bIdx title content mentions).1.data ∧
      (fmtYmdHms (env.beijing bIdx)).data <:+:
        (renderStep env now bIdx title content mentions).1.data ∧
      content.data <:+: (renderStep env now bIdx title content mentions).1.data ∧
      "HMAC-SHA256".data <:+: (renderStep env now bIdx title content mentions).1.data) := by
  constructor
  · intro env now bIdx A0 A1 A2 A3 A4 title content mentions htpl h0 h1 h2 h3 h4 ht hc
    exact render_template_subst env now bIdx A0 A1 A2 A3 A4 title content mentions
      htpl h0 h1 h2 h3 h4 ht hc
  · intro env now bIdx title content mentions htpl
    have hr : (renderStep env now bIdx title content mentions).1 =
        format_message title content (env.beijing bIdx) := by
      simp [renderStep, htpl]
    refine ⟨hr, ?_, ?_, ?_, ?_⟩ <;> rw [hr]
    · exact (format_message_infixes title content (env.beijing bIdx)).1
    · exact (format_message_infixes title content (env.beijing bIdx)).2.1
    · exact (format_message_infixes title content (env.beijing bIdx)).2.2.1
    · exact (format_message_infixes title content (env.beijing bIdx)).2.2.2

def tplC6 : String := "A\x7b\x7btitle\x7d\x7dB"

def envC6 : Env :=
  { WEBHOOK_URL := none, SECRET := none, template_md := some (some tplC6),
    beijing := fun _ => dtW, epochMs := fun _ => 0 }

/-- **C6 counterexample.** Substitution is sequential, not simultaneous:
with template `A{{title}}B` and a *title value* that is itself the literal
token `{{datetime}}`, the rendered text is not `A{{datetime}}B` (the
value substituted verbatim, as the claim reads) — the later replace pass
rewrites the inserted value into the timestamp. -/
theorem sequential_substitution_counterexample :
    (renderStep envC6 dtW 1 tokDatetime "c" "m").1 = "A2026-01-02 09:00:00B" ∧
    (renderStep envC6 dtW 1 tokDatetime "c" "m").1 ≠ "A" ++ tokDatetime ++ "B" := by
  exact ⟨by decide, by decide⟩

def envC6W : Env :=
  { WEBHOOK_URL := none, SECRET := none,
    template_md := some (some ("HEAD\n" ++ (tokTitle ++ ("\n" ++ (tokDatetime ++
      ("\n" ++ (tokContent ++ ("\n" ++ (tokMentions ++ "\nTAIL"))))))))),
    beijing := fun _ => dtW, epochMs := fun _ => 0 }

/-- **C6 witness.** -/
theorem rendering_substitution_witness :
    (renderStep envC6W dtW 1 "T" "C" "M").1 =
      "HEAD\nT\n2026-01-02 09:00:00\nC\nM\nTAIL" := by
  have h := rendering_substitution.1 envC6W dtW 1 "HEAD\n" "\n" "\n" "\n" "\nTAIL"
    "T" "C" "M" rfl (by decide) (by decide) (by decide) (by decide) (by decide)
    (by decide) (by decide)
  rw [h]
  decide
